import Mathlib

/-!
Verification of the resumable asynchronous task broker implemented in
`backend/utils/sse/sse.go` (package `sse`) together with the panic guard in
`backend/utils/safego/safego.go`.

The Go code is shallowly embedded: each lock-protected section of a manager
method becomes a pure function on an explicit manager state, Go channels
become bounded FIFO queues, `context` done-ness becomes a boolean, and the
nondeterminism of a Go `select` with several ready cases is resolved by an
explicit oracle argument.  Timestamps are naturals; `time.Time.Before` is `<`.
-/

namespace SSE

/-- Task status, mirroring the `TaskStatus` constants of the source. -/
inductive TaskStatus where
  | running
  | completed
  | failed
  | cancelled
deriving DecidableEq, Repr

/-- The errors the package can return: the three typed errors declared at the
top of `sse.go`, plus the caller-context error (`ctx.Err()`) that some code
paths return.  `ctxCanceled` is distinct from every typed error, exactly as
`context.Canceled` is a distinct `error` value in Go. -/
inductive SSEError where
  | ErrTaskNotFound
  | ErrTaskNotRunning
  | ErrTaskExpired
  | ctxCanceled
deriving DecidableEq, Repr

/-- A bounded Go channel: a FIFO buffer with a capacity and a closed flag. -/
structure Chan (α : Type) where
  cap : Nat
  buf : List α
  closed : Bool
deriving DecidableEq, Repr

/-- A send is ready (does not block) when the channel is open and has room.
Closing is handled separately; the claims only exercise open channels. -/
def Chan.sendReady (ch : Chan α) : Bool :=
  !ch.closed && decide (ch.buf.length < ch.cap)

/-- Non-blocking send, the `select { case ch <- d: default: }` idiom used all
over the source: append when ready, silently drop otherwise. -/
def Chan.trySend (ch : Chan α) (d : α) : Chan α :=
  if ch.sendReady then { ch with buf := ch.buf ++ [d] } else ch

/-- The `TaskInfo` record of the source (channels embedded as `Chan`, the
`DataChannel` nil-able because `CompleteTask` sets it to `nil`). -/
structure TaskInfo (α : Type) where
  taskID : String
  resumeKey : String
  status : TaskStatus
  progress : Option α
  cachedData : List α
  createdAt : Nat
  updatedAt : Nat
  expiresAt : Nat
  dataChannel : Option (Chan α)
  subscribers : List (String × Chan α)
  listenerStarted : Bool
deriving DecidableEq, Repr

/-- The `SSEManager`: the task map and the default TTL. -/
structure SSEManager (α : Type) where
  tasks : List (String × TaskInfo α)
  defaultTTL : Nat
deriving DecidableEq, Repr

/-- Lookup in a Go map embedded as an association list with unique keys. -/
def lookupAssoc (l : List (String × β)) (k : String) : Option β :=
  (l.find? (fun p => p.1 == k)).map (fun p => p.2)

/-- Insert-or-replace in an association list, the embedding of `m[k] = v`. -/
def setAssoc (l : List (String × β)) (k : String) (v : β) : List (String × β) :=
  match l with
  | [] => [(k, v)]
  | p :: rest => if p.1 == k then (k, v) :: rest else p :: setAssoc rest k v

/-- Deletion from an association list, the embedding of `delete(m, k)`. -/
def removeAssoc (l : List (String × β)) (k : String) : List (String × β) :=
  l.filter (fun p => p.1 != k)

def SSEManager.getTask (m : SSEManager α) (taskID : String) : Option (TaskInfo α) :=
  lookupAssoc m.tasks taskID

def SSEManager.setTask (m : SSEManager α) (taskID : String) (t : TaskInfo α) : SSEManager α :=
  { m with tasks := setAssoc m.tasks taskID t }

/-- Push a payload onto the record's data channel (non-blocking). -/
def pushData (t : TaskInfo α) (d : α) : TaskInfo α :=
  { t with dataChannel := t.dataChannel.map (fun ch => ch.trySend d) }

/-- Whether a send on the record's data channel is ready; a `nil` channel is
never ready (a select case on a nil channel blocks forever in Go). -/
def canSendData (t : TaskInfo α) : Bool :=
  match t.dataChannel with
  | some ch => ch.sendReady
  | none => false

/-- Embedding of `SSEManager.UpdateProgress`.  `ctxDone` is whether the passed
context is already done; `choice` resolves the final `select` when both the
channel send and `ctx.Done()` are ready (`true` picks `ctx.Done()`, as Go may).
Returns the new manager state and the returned error (`none` on success).
The progress and `updatedAt` writes happen before the `select`, so they are
visible even on the `ctx.Err()` return. -/
def UpdateProgress (m : SSEManager α) (ctxDone choice : Bool)
    (taskID : String) (data : α) (now : Nat) : SSEManager α × Option SSEError :=
  match m.getTask taskID with
  | none => (m, some .ErrTaskNotFound)
  | some task =>
    if task.status ≠ .running then (m, some .ErrTaskNotRunning)
    else
      let task := { task with progress := some data, updatedAt := now }
      if canSendData task && ctxDone then
        if choice then (m.setTask taskID task, some .ctxCanceled)
        else (m.setTask taskID (pushData task data), none)
      else if ctxDone then (m.setTask taskID task, some .ctxCanceled)
      else if canSendData task then (m.setTask taskID (pushData task data), none)
      else (m.setTask taskID task, none)

/-- Embedding of `SSEManager.CompleteTask`: a no-op on an unknown id;
otherwise it sets the status unconditionally (there is no still-`running`
guard in the source), stamps `updatedAt`, clears the cache, closes and nils
the data channel, and closes every subscriber channel before clearing the
subscriber map.  The snapshot of subscriber channels that the source closes
is dropped here because the map is cleared in the same call; consumer-held
aliases are modeled separately where a claim needs them. -/
def CompleteTask (m : SSEManager α) (taskID : String) (status : TaskStatus)
    (now : Nat) : SSEManager α :=
  match m.getTask taskID with
  | none => m
  | some task =>
    m.setTask taskID
      { task with
        status := status
        updatedAt := now
        cachedData := []
        dataChannel := none
        subscribers := [] }

/-- Embedding of `SSEManager.GetTaskInfo`: a defensive copy carrying only the
metadata fields — cache, channels, subscriber map and listener flag are left
at their zero values in the copy the source builds. -/
def GetTaskInfo (m : SSEManager α) (taskID : String) : Except SSEError (TaskInfo α) :=
  match m.getTask taskID with
  | none => .error .ErrTaskNotFound
  | some task =>
    .ok { task with
          cachedData := []
          dataChannel := none
          subscribers := []
          listenerStarted := false }

/-- The cache-flush loop of `ExecuteWithSSE` step 4: each cached payload is
offered to the newly created subscriber channel in a
`select { case subChan <- cached: case <-ctx.Done(): return ctx.Err() default: }`.
When the send and `ctx.Done()` are both ready, Go picks one at random; here the
head of `choices` resolves that race, `true` picking `ctx.Done()` and thereby
aborting the whole attach with the context's error.  When only `ctx.Done()` is
ready the loop aborts; when only the send is ready it sends; when neither is
ready the payload is silently dropped.  Returns the final channel, the unused
choices, and whether the loop aborted. -/
def flushLoop (ctxDone : Bool) : List Bool → List α → Chan α → Chan α × List Bool × Bool
  | choices, [], ch => (ch, choices, false)
  | choices, d :: rest, ch =>
    if ch.sendReady && ctxDone then
      match choices with
      | true :: choices2 => (ch, choices2, true)
      | false :: choices2 => flushLoop ctxDone choices2 rest (ch.trySend d)
      | [] => flushLoop ctxDone [] rest (ch.trySend d)
    else if ctxDone then (ch, choices, true)
    else if ch.sendReady then flushLoop ctxDone choices rest (ch.trySend d)
    else flushLoop ctxDone choices rest ch

/-- Steps 3–4 of `ExecuteWithSSE`: create the subscriber channel with
capacity 100, register it in the record's subscriber map, and — if the cache
is non-empty — flush the cache into the channel and then clear the cache.
An abort by `ctx.Done()` returns from inside the flush loop, leaving the
subscriber registered and the cache uncleared, exactly as the source's
`return nil, "", ctx.Err()` does.  Returns the updated record and the abort
flag. -/
def attachSubscriber (ctxDone : Bool) (choices : List Bool) (subscriberID : String)
    (task : TaskInfo α) : TaskInfo α × Bool :=
  let subChan : Chan α := ⟨100, [], false⟩
  let task := { task with subscribers := setAssoc task.subscribers subscriberID subChan }
  if 0 < task.cachedData.length then
    let r := flushLoop ctxDone choices task.cachedData subChan
    let task := { task with subscribers := setAssoc task.subscribers subscriberID r.1 }
    if r.2.2 then (task, true)
    else ({ task with cachedData := [] }, false)
  else (task, false)

/-- The resume lookup of `ExecuteWithSSE` step 1: scan the task map for the
record whose `resumeKey` matches. -/
def findByResumeKey (tasks : List (String × TaskInfo α)) (key : String) :
    Option (String × TaskInfo α) :=
  tasks.find? (fun p => p.2.resumeKey == key)

/-- What `ExecuteWithSSE` hands back: the manager state after the call, the
returned error (`none` on success), the returned task id, and whether a new
task was created (`isNewTask` in the source). -/
structure ExecResult (α : Type) where
  m : SSEManager α
  err : Option SSEError
  taskID : String
  isNewTask : Bool
deriving DecidableEq, Repr

/-- Embedding of `SSEManager.ExecuteWithSSE` (its synchronous body, up to
returning the output channel; the spawned goroutines are modeled by
`broadcastStep`, `runnerFinish` and `consumerCancel`).

Step 1: a non-empty `resumeKey` is looked up; on a match the record fails
with `ErrTaskExpired` when `expiresAt` has passed (checked first), then with
`ErrTaskNotRunning` when the status is not `running`.  When the key is empty
— or matches nothing — step 2 creates a fresh `running` record (ids derived
from the current time, `expiresAt = now + defaultTTL`) and inserts it.
Steps 3–4 attach the subscriber (see `attachSubscriber`); an abort there
returns `ctx.Err()` with the already-performed mutations kept.  Step 5 marks
the listener started for a new task. -/
def ExecuteWithSSE (m : SSEManager α) (ctxDone : Bool) (choices : List Bool)
    (resumeKey subscriberID : String) (now : Nat) : ExecResult α :=
  let found := if resumeKey == "" then none else findByResumeKey m.tasks resumeKey
  match found with
  | some (id, task) =>
    if task.expiresAt < now then ⟨m, some .ErrTaskExpired, "", false⟩
    else if task.status ≠ .running then ⟨m, some .ErrTaskNotRunning, "", false⟩
    else
      let r := attachSubscriber ctxDone choices subscriberID task
      let m2 := m.setTask id r.1
      if r.2 then ⟨m2, some .ctxCanceled, "", false⟩
      else ⟨m2, none, id, false⟩
  | none =>
    let newID := "task_" ++ toString now
    let newKey := "resume_" ++ toString now
    let task : TaskInfo α :=
      { taskID := newID
        resumeKey := newKey
        status := .running
        progress := none
        cachedData := []
        createdAt := now
        updatedAt := now
        expiresAt := now + m.defaultTTL
        dataChannel := some ⟨100, [], false⟩
        subscribers := []
        listenerStarted := false }
    let r := attachSubscriber ctxDone choices subscriberID task
    let task2 := if r.2 then r.1 else { r.1 with listenerStarted := true }
    let m2 : SSEManager α := { m with tasks := setAssoc m.tasks newID task2 }
    if r.2 then ⟨m2, some .ctxCanceled, "", false⟩
    else ⟨m2, none, newID, true⟩

/-- One iteration of the per-task listener goroutine spawned in step 5
(`safego.Go` around the `for { select ... } }` loop): take the next payload
off the data channel; snapshot the subscriber map; if any subscriber is
registered, non-blocking-send the payload to each of them; otherwise append
it to the cache.  An empty or absent data channel leaves the record
unchanged (the goroutine would block or exit). -/
def broadcastStep (task : TaskInfo α) : TaskInfo α :=
  match task.dataChannel with
  | none => task
  | some ch =>
    match ch.buf with
    | [] => task
    | d :: rest =>
      let task := { task with dataChannel := some { ch with buf := rest } }
      if 0 < task.subscribers.length then
        { task with subscribers := task.subscribers.map (fun p => (p.1, p.2.trySend d)) }
      else
        { task with cachedData := task.cachedData ++ [d] }

/-- The deferred cleanup of the forwarding goroutine of step 6: if this
subscriber is still registered, remove it from the map and close its channel
(the close is invisible here because the channel leaves the record with the
map entry).  Already-deregistered subscribers (cleaned by `CompleteTask`)
are left alone. -/
def detachSubscriber (task : TaskInfo α) (subscriberID : String) : TaskInfo α :=
  match lookupAssoc task.subscribers subscriberID with
  | none => task
  | some _ => { task with subscribers := removeAssoc task.subscribers subscriberID }

/-- One firing of the cleanup ticker in `cleanupExpiredTasks`: every record
that is past its expiry or not `running` is deleted from the registry (its
channels force-closed with recover guards). -/
def sweepStep (m : SSEManager α) (now : Nat) : SSEManager α :=
  { m with tasks := m.tasks.filter (fun p => !decide (p.2.expiresAt < now) && p.2.status == .running) }

/-- How the caller-supplied work function ends: a `nil` return, a non-nil
error return, or a panic. -/
inductive WorkOutcome where
  | retNil
  | retErr
  | panicked
deriving DecidableEq, Repr

/-- The runner goroutine spawned in step 5 of `ExecuteWithSSE`:
`safego.Go(ctx, func() { defer cancel(); err := asyncFunc(...); if err != nil
{ CompleteTask(failed) } else { CompleteTask(completed) } })`, where
`safego.Go` wraps the closure in `defer Recovery(ctx)`.  A `nil` return
dispatches to `CompleteTask(completed)`, an error return to
`CompleteTask(failed)`.  A panic inside `asyncFunc` unwinds past the
`if err != nil` dispatch: the deferred `cancel()` runs, `Recovery` recovers
and logs at the goroutine boundary, and no `CompleteTask` call is ever made,
so the manager state is unchanged. -/
def runnerFinish (m : SSEManager α) (taskID : String) (outcome : WorkOutcome)
    (now : Nat) : SSEManager α :=
  match outcome with
  | .retNil => CompleteTask m taskID .completed now
  | .retErr => CompleteTask m taskID .failed now
  | .panicked => m

/-- A consumer session as the caller sees it: whether its output channel has
been closed. -/
structure ConsumerSession where
  outputClosed : Bool
deriving DecidableEq, Repr

/-- What happens when the caller's context is cancelled: the forwarding
goroutine of step 6 takes its `ctx.Done()` branch and returns, its deferred
cleanup deregisters this subscriber and closes its channel, and
`defer close(outputChan)` closes the output channel.  Nothing else is
touched — in particular the record's status and the runner's scope (built
from `context.Background()`) are not. -/
def consumerCancel (m : SSEManager α) (taskID subscriberID : String)
    (s : ConsumerSession) : SSEManager α × ConsumerSession :=
  let m2 := match m.getTask taskID with
    | none => m
    | some task => m.setTask taskID (detachSubscriber task subscriberID)
  (m2, { s with outputClosed := true })

/-- What the forwarding goroutine of step 6 delivers to the output channel
for one subscriber: first the cache copy it takes at its start, then the
contents of its subscriber queue in FIFO order (sends to the output channel
block rather than drop, so with a reading caller nothing is lost here). -/
def forwardAll (task : TaskInfo α) (subscriberID : String) : List α :=
  task.cachedData ++
    (match lookupAssoc task.subscribers subscriberID with
     | some ch => ch.buf
     | none => [])

/-- A running record holding `cached` buffered payloads and no subscribers —
the state of a task whose consumers have all detached while the work
function kept producing. -/
def detachedRecord (cached : List α) : TaskInfo α :=
  { taskID := "t"
    resumeKey := "r"
    status := .running
    progress := none
    cachedData := cached
    createdAt := 0
    updatedAt := 0
    expiresAt := 1000
    dataChannel := some ⟨100, [], false⟩
    subscribers := []
    listenerStarted := true }

/-- A manager holding exactly one detached running record. -/
def detachedManager (cached : List α) : SSEManager α :=
  ⟨[("t", detachedRecord cached)], 3600⟩

/-- One live update after the resume: the work function calls
`UpdateProgress` with a live caller context (the successful enqueue path),
then the listener runs one `broadcastStep` fanning the payload out. -/
def liveStep (m : SSEManager α) (d : α) : SSEManager α :=
  let m2 := (UpdateProgress m false false "t" d 1).1
  match m2.getTask "t" with
  | some task => m2.setTask "t" (broadcastStep task)
  | none => m2

/-- The resume-ordering scenario of the spec: a record with `cached`
payloads buffered while no consumer was attached; a consumer resumes via
`ExecuteWithSSE` with the record's resume key; each element of `live` is
then produced by the still-running work function; finally the forwarding
goroutine delivers to the output channel. -/
def deliveredAfterResume (cached live : List α) : List α :=
  let r := ExecuteWithSSE (detachedManager cached) false [] "r" "s" 0
  let m2 := live.foldl liveStep r.m
  match m2.getTask "t" with
  | some task => forwardAll task "s"
  | none => []

/-- The runner's cancellation scope as built in step 5:
`context.WithTimeout(context.Background(), asyncTimeout)` when the timeout
is positive, else `context.WithCancel(context.Background())`.  It is derived
from `context.Background()`, so its done-ness is a function of the timeout
and elapsed time only — the caller's context is not an input. -/
def asyncScopeDone (asyncTimeout startedAt now : Nat) : Bool :=
  decide (0 < asyncTimeout) && decide (startedAt + asyncTimeout ≤ now)

/-- The operations that mutate broker state, each an atomic lock-protected
section of the source: an `ExecuteWithSSE` call, an `UpdateProgress` call,
one listener fan-out iteration, a `CompleteTask` call, one consumer-detach
cleanup, and one sweep firing. -/
inductive Op (α : Type) where
  | exec (ctxDone : Bool) (choices : List Bool) (resumeKey subscriberID : String) (now : Nat)
  | progress (ctxDone choice : Bool) (taskID : String) (data : α) (now : Nat)
  | broadcast (taskID : String)
  | complete (taskID : String) (status : TaskStatus) (now : Nat)
  | detach (taskID subscriberID : String)
  | sweep (now : Nat)

/-- Apply one operation to the manager, returning the new state and the
error the operation reported (`none` for the operations that cannot fail). -/
def applyOp (m : SSEManager α) : Op α → SSEManager α × Option SSEError
  | .exec ctxDone choices key sid now =>
    let r := ExecuteWithSSE m ctxDone choices key sid now
    (r.m, r.err)
  | .progress ctxDone choice id d now => UpdateProgress m ctxDone choice id d now
  | .broadcast id =>
    (match m.getTask id with
     | some task => m.setTask id (broadcastStep task)
     | none => m, none)
  | .complete id st now => (CompleteTask m id st now, none)
  | .detach id sid =>
    (match m.getTask id with
     | some task => m.setTask id (detachSubscriber task sid)
     | none => m, none)
  | .sweep now => (sweepStep m now, none)

/-- The buffer/subscriber steady-state invariant of the spec: every record
in the registry whose cache is non-empty has zero subscribers. -/
def BufferInv (m : SSEManager α) : Prop :=
  ∀ q ∈ m.tasks, (q : String × TaskInfo α).2.cachedData ≠ [] →
    (q : String × TaskInfo α).2.subscribers = []

/-- A freshly created manager state with one new running task, produced by
the embedded `ExecuteWithSSE` itself: the state just after a caller started
a new task at time 0. -/
def c1m : SSEManager Nat :=
  (ExecuteWithSSE (⟨[], 3600⟩ : SSEManager Nat) false [] "" "client" 0).m

/-- A record that already reached the terminal status `completed`. -/
def c3task : TaskInfo Nat :=
  { taskID := "t3"
    resumeKey := "r3"
    status := .completed
    progress := some 2
    cachedData := []
    createdAt := 0
    updatedAt := 3
    expiresAt := 1000
    dataChannel := none
    subscribers := []
    listenerStarted := true }

/-- A manager holding only the terminal record `c3task`. -/
def c3m : SSEManager Nat := ⟨[("t3", c3task)], 3600⟩

/-- A manager with one running task used to instantiate the `UpdateProgress`
contract. -/
def c5m : SSEManager Nat := detachedManager [] |>.setTask "t" (detachedRecord [])

/-- A record that is both expired and terminal: `expiresAt = 10`, status
`completed`.  Resuming it past time 10 must hit the expiry check before the
status check. -/
def c6task : TaskInfo Nat :=
  { taskID := "t6"
    resumeKey := "r6"
    status := .completed
    progress := none
    cachedData := []
    createdAt := 0
    updatedAt := 0
    expiresAt := 10
    dataChannel := none
    subscribers := []
    listenerStarted := true }

/-- A manager holding only the expired terminal record `c6task`. -/
def c6m : SSEManager Nat := ⟨[("t6", c6task)], 3600⟩

/-- A detached running record with one buffered payload, resumed below with
an already-cancelled caller context. -/
def c7m : SSEManager Nat :=
  ⟨[("t7", { detachedRecord [5] with taskID := "t7", resumeKey := "r7" })], 3600⟩

/-- The state after resuming `c7m` with a cancelled caller context whose
flush select picks `ctx.Done()` first. -/
def c7after : SSEManager Nat :=
  (applyOp c7m (Op.exec true [true] "r7" "s7" 0)).1

/-- A manager with one running task that has one attached subscriber, used
for the caller-cancellation isolation claim. -/
def c8m : SSEManager Nat :=
  (ExecuteWithSSE (⟨[], 3600⟩ : SSEManager Nat) false [] "" "c8sub" 0).m

/-- A detached running record with one buffered payload, for the
non-atomic-error-path claim. -/
def c9m : SSEManager Nat :=
  ⟨[("t9", { detachedRecord [1] with taskID := "t9", resumeKey := "r9" })], 3600⟩

/-- A manager with one running task with an open, non-full data channel. -/
def c10m : SSEManager Nat :=
  ⟨[("t10", { detachedRecord [] with taskID := "t10", resumeKey := "r10" })], 3600⟩

/-- The queued payloads of a record's data channel (a nil channel holds
nothing). -/
def chanBuf (t : TaskInfo α) : List α :=
  match t.dataChannel with
  | some ch => ch.buf
  | none => []

/-- An `ExecuteWithSSE` call that was aborted by the caller's cancelled
context from inside the cache-flush loop (the only operation whose error
path mutates record state). -/
def execAborted (m : SSEManager α) : Op α → Prop
  | .exec ctxDone choices key sid now =>
    (ExecuteWithSSE m ctxDone choices key sid now).err = some .ctxCanceled
  | _ => False

/-- The record of `detachedManager` after a consumer attached and the cache
was flushed into its subscriber queue, with the given queue state, progress
and update stamp. -/
def liveState (ch : Chan α) (prog : Option α) (upd : Nat) : TaskInfo α :=
  { detachedRecord ([] : List α) with
    progress := prog
    updatedAt := upd
    subscribers := [("s", ch)] }

/-! ## Association-list lemmas -/

theorem lookupAssoc_cons (p : String × β) (rest : List (String × β)) (k : String) :
    lookupAssoc (p :: rest) k = if p.1 == k then some p.2 else lookupAssoc rest k := by
  simp only [lookupAssoc, List.find?]
  cases hb : (p.1 == k) <;> simp [hb]

theorem lookupAssoc_setAssoc_self (l : List (String × β)) (k : String) (v : β) :
    lookupAssoc (setAssoc l k v) k = some v := by
  induction l with
  | nil => simp [setAssoc, lookupAssoc_cons, lookupAssoc]
  | cons p rest ih =>
    by_cases hp : p.1 = k
    · simp [setAssoc, hp, lookupAssoc_cons]
    · have hb : (p.1 == k) = false := beq_false_of_ne hp
      simp [setAssoc, hb, lookupAssoc_cons, ih]

theorem lookupAssoc_setAssoc_ne (l : List (String × β)) (k k2 : String) (v : β)
    (h : k2 ≠ k) : lookupAssoc (setAssoc l k v) k2 = lookupAssoc l k2 := by
  have hkk : (k == k2) = false := beq_false_of_ne (Ne.symm h)
  induction l with
  | nil => simp [setAssoc, lookupAssoc_cons, hkk, lookupAssoc]
  | cons p rest ih =>
    by_cases hp : p.1 = k
    · simp [setAssoc, hp, lookupAssoc_cons, hkk]
    · have hb : (p.1 == k) = false := beq_false_of_ne hp
      simp [setAssoc, hb, lookupAssoc_cons, ih]

theorem mem_of_lookupAssoc {l : List (String × β)} {k : String} {v : β}
    (h : lookupAssoc l k = some v) : (k, v) ∈ l := by
  induction l with
  | nil => simp [lookupAssoc] at h
  | cons p rest ih =>
    rw [lookupAssoc_cons] at h
    by_cases hp : (p.1 == k) = true
    · rw [if_pos hp] at h
      obtain ⟨a, b⟩ := p
      cases h
      have ha : a = k := by simpa using hp
      subst ha
      exact List.mem_cons_self _ _
    · rw [if_neg hp] at h
      exact List.mem_cons_of_mem _ (ih h)

theorem lookupAssoc_removeAssoc_self (l : List (String × β)) (k : String) :
    lookupAssoc (removeAssoc l k) k = none := by
  induction l with
  | nil => rfl
  | cons p rest ih =>
    by_cases hp : p.1 = k
    · have hb : (p.1 != k) = false := by simp [hp]
      show lookupAssoc (List.filter (fun q => q.1 != k) (p :: rest)) k = none
      rw [List.filter_cons, hb]
      simpa [removeAssoc] using ih
    · have hb : (p.1 != k) = true := by simp [hp]
      have hbeq : (p.1 == k) = false := beq_false_of_ne hp
      show lookupAssoc (List.filter (fun q => q.1 != k) (p :: rest)) k = none
      rw [List.filter_cons, hb, if_pos rfl]
      rw [lookupAssoc_cons, if_neg (by simp [hbeq])]
      simpa [removeAssoc] using ih

theorem mem_setAssoc {l : List (String × β)} {k : String} {v : β} {q : String × β}
    (h : q ∈ setAssoc l k v) : q = (k, v) ∨ q ∈ l := by
  induction l with
  | nil => simpa [setAssoc] using h
  | cons p rest ih =>
    by_cases hp : p.1 = k
    · have hb : (p.1 == k) = true := by simp [hp]
      rw [setAssoc, if_pos hb] at h
      rcases List.mem_cons.mp h with h2 | h2
      · exact Or.inl h2
      · exact Or.inr (List.mem_cons_of_mem _ h2)
    · have hb : (p.1 == k) = false := beq_false_of_ne hp
      rw [setAssoc, if_neg (by simp [hb])] at h
      rcases List.mem_cons.mp h with h2 | h2
      · exact Or.inr (by simp [h2])
      · rcases ih h2 with h3 | h3
        · exact Or.inl h3
        · exact Or.inr (List.mem_cons_of_mem _ h3)

theorem setAssoc_setAssoc_self (l : List (String × β)) (k : String) (v w : β) :
    setAssoc (setAssoc l k v) k w = setAssoc l k w := by
  induction l with
  | nil => simp [setAssoc]
  | cons p rest ih =>
    by_cases hp : p.1 = k
    · simp [setAssoc, hp]
    · have hb : (p.1 == k) = false := beq_false_of_ne hp
      simp [setAssoc, hb, ih]

/-! ## Channel and flush-loop lemmas -/

theorem trySend_of_ready {ch : Chan α} (h : ch.sendReady = true) (d : α) :
    ch.trySend d = { ch with buf := ch.buf ++ [d] } := by
  simp [Chan.trySend, h]

theorem trySend_of_not_ready {ch : Chan α} (h : ch.sendReady = false) (d : α) :
    ch.trySend d = ch := by
  simp [Chan.trySend, h]

theorem flushLoop_not_done (choices : List Bool) (l : List α) (ch : Chan α) :
    flushLoop false choices l ch = (l.foldl Chan.trySend ch, choices, false) := by
  induction l generalizing ch with
  | nil => rfl
  | cons d rest ih =>
    simp only [flushLoop]
    by_cases hs : ch.sendReady = true
    · simp only [hs, Bool.and_false, Bool.false_eq_true, if_false, if_true, ih]
      rfl
    · have hs2 : ch.sendReady = false := by simpa using hs
      simp only [hs2, Bool.false_and, Bool.false_eq_true, if_false, ih]
      rw [List.foldl_cons, trySend_of_not_ready hs2]

theorem foldl_trySend_of_room (l : List α) (ch : Chan α) (hcl : ch.closed = false)
    (hlen : ch.buf.length + l.length ≤ ch.cap) :
    l.foldl Chan.trySend ch = { ch with buf := ch.buf ++ l } := by
  induction l generalizing ch with
  | nil => simp
  | cons d rest ih =>
    have hlen2 : ch.buf.length + rest.length + 1 ≤ ch.cap := by
      simp only [List.length_cons] at hlen
      omega
    have hready : ch.sendReady = true := by
      simp only [Chan.sendReady, hcl, Bool.not_false, Bool.true_and, decide_eq_true_eq]
      omega
    rw [List.foldl_cons, trySend_of_ready hready,
      ih { ch with buf := ch.buf ++ [d] } hcl
        (by simp only [List.length_append, List.length_cons, List.length_nil]; omega)]
    simp

theorem foldl_trySend_sublist (l : List α) (ch : Chan α) :
    ∃ kept, (l.foldl Chan.trySend ch).buf = ch.buf ++ kept ∧ kept.Sublist l := by
  induction l generalizing ch with
  | nil => exact ⟨[], by simp, List.Sublist.refl _⟩
  | cons d rest ih =>
    rw [List.foldl_cons]
    by_cases hs : ch.sendReady = true
    · rw [trySend_of_ready hs]
      obtain ⟨kept, hk, hsub⟩ := ih { ch with buf := ch.buf ++ [d] }
      refine ⟨d :: kept, ?_, List.Sublist.cons₂ _ hsub⟩
      simpa using hk
    · have hs2 : ch.sendReady = false := by simpa using hs
      rw [trySend_of_not_ready hs2]
      obtain ⟨kept, hk, hsub⟩ := ih ch
      exact ⟨kept, hk, List.Sublist.cons _ hsub⟩

/-! ## Attach lemmas -/

theorem attachSubscriber_not_done (choices : List Bool) (sid : String)
    (task : TaskInfo α) :
    attachSubscriber false choices sid task =
      ({ task with
          subscribers := setAssoc task.subscribers sid
            (task.cachedData.foldl Chan.trySend ⟨100, [], false⟩)
          cachedData := [] }, false) := by
  rw [attachSubscriber]
  by_cases hc : 0 < task.cachedData.length
  · simp only [hc, if_true, flushLoop_not_done, setAssoc_setAssoc_self]
    simp
  · have hnil : task.cachedData = [] := by
      cases h : task.cachedData with
      | nil => rfl
      | cons a l => rw [h] at hc; simp at hc
    simp only [hc, if_false, hnil, List.foldl_nil]
    cases task
    simp_all

theorem attachSubscriber_cache_nil (ctxDone : Bool) (choices : List Bool)
    (sid : String) (task : TaskInfo α) (h : task.cachedData = []) :
    attachSubscriber ctxDone choices sid task =
      ({ task with subscribers := setAssoc task.subscribers sid ⟨100, [], false⟩ }, false) := by
  rw [attachSubscriber]
  simp [h]

theorem attachSubscriber_no_abort_cache {ctxDone : Bool} {choices : List Bool}
    {sid : String} {task : TaskInfo α}
    (h : (attachSubscriber ctxDone choices sid task).2 = false) :
    (attachSubscriber ctxDone choices sid task).1.cachedData = [] := by
  rw [attachSubscriber] at h ⊢
  by_cases hc : 0 < task.cachedData.length
  · simp only [hc, if_true] at h ⊢
    by_cases ha : (flushLoop ctxDone choices task.cachedData ⟨100, [], false⟩).2.2 = true
    · simp [ha] at h
    · simp only [Bool.not_eq_true] at ha
      simp [ha]
  · have hnil : task.cachedData = [] := by
      cases hh : task.cachedData with
      | nil => rfl
      | cons a l => rw [hh] at hc; simp at hc
    simp [hc, hnil]

theorem lookupAssoc_removeAssoc_ne (l : List (String × β)) (k k2 : String)
    (h : k2 ≠ k) : lookupAssoc (removeAssoc l k) k2 = lookupAssoc l k2 := by
  induction l with
  | nil => rfl
  | cons p rest ih =>
    by_cases hp : p.1 = k
    · have hb : (p.1 != k) = false := by simp [hp]
      have hbeq2 : (p.1 == k2) = false := by
        subst hp
        exact beq_false_of_ne (fun hh => h (hh.symm))
      show lookupAssoc (List.filter (fun q => q.1 != k) (p :: rest)) k2 = _
      rw [List.filter_cons, hb]
      simp only [Bool.false_eq_true, if_false]
      rw [lookupAssoc_cons, if_neg (by simp [hbeq2])]
      exact ih
    · have hb : (p.1 != k) = true := by simp [hp]
      show lookupAssoc (List.filter (fun q => q.1 != k) (p :: rest)) k2 = _
      rw [List.filter_cons, hb, if_pos rfl, lookupAssoc_cons, lookupAssoc_cons]
      by_cases hp2 : (p.1 == k2) = true
      · rw [if_pos hp2, if_pos hp2]
      · rw [if_neg hp2, if_neg hp2]
        exact ih

theorem getTask_setTask_self (m : SSEManager α) (id : String) (t : TaskInfo α) :
    (m.setTask id t).getTask id = some t :=
  lookupAssoc_setAssoc_self _ _ _

theorem getTask_setTask_ne (m : SSEManager α) (id id2 : String) (t : TaskInfo α)
    (h : id2 ≠ id) : (m.setTask id t).getTask id2 = m.getTask id2 :=
  lookupAssoc_setAssoc_ne _ _ _ _ h

/-! ## ExecuteWithSSE case lemmas -/

theorem exec_found (m : SSEManager α) (ctxDone : Bool) (choices : List Bool)
    {key : String} (sid : String) (now : Nat) {id : String} {t : TaskInfo α}
    (hkey : key ≠ "") (hfind : findByResumeKey m.tasks key = some (id, t)) :
    ExecuteWithSSE m ctxDone choices key sid now =
      (if t.expiresAt < now then ⟨m, some .ErrTaskExpired, "", false⟩
       else if t.status ≠ .running then ⟨m, some .ErrTaskNotRunning, "", false⟩
       else
         let r := attachSubscriber ctxDone choices sid t
         if r.2 then ⟨m.setTask id r.1, some .ctxCanceled, "", false⟩
         else ⟨m.setTask id r.1, none, id, false⟩) := by
  have hb : (key == "") = false := beq_false_of_ne hkey
  rw [ExecuteWithSSE]
  simp only [hb, Bool.false_eq_true, if_false, hfind]

theorem exec_not_found (m : SSEManager α) (ctxDone : Bool) (choices : List Bool)
    {key : String} (sid : String) (now : Nat)
    (hfind : (if key == "" then none else findByResumeKey m.tasks key) =
      (none : Option (String × TaskInfo α))) :
    ExecuteWithSSE m ctxDone choices key sid now =
      ⟨{ m with
          tasks := setAssoc m.tasks ("task_" ++ toString now)
            ({ taskID := "task_" ++ toString now
               resumeKey := "resume_" ++ toString now
               status := .running
               progress := none
               cachedData := []
               createdAt := now
               updatedAt := now
               expiresAt := now + m.defaultTTL
               dataChannel := some ⟨100, [], false⟩
               subscribers := [(sid, ⟨100, [], false⟩)]
               listenerStarted := true } : TaskInfo α) },
        none, "task_" ++ toString now, true⟩ := by
  rw [ExecuteWithSSE]
  simp only [hfind]
  rw [attachSubscriber_cache_nil _ _ _ _ rfl]
  simp [setAssoc]

/-! ## Preservation of the buffer/subscriber invariant -/

theorem bufferInv_setTask {m : SSEManager α} {id : String} {t2 : TaskInfo α}
    (hInv : BufferInv m) (ht2 : t2.cachedData ≠ [] → t2.subscribers = []) :
    BufferInv (m.setTask id t2) := by
  intro q hq hcache
  rcases mem_setAssoc hq with h | h
  · subst h
    exact ht2 hcache
  · exact hInv q h hcache

theorem bufferInv_of_preserving {m : SSEManager α} {id : String}
    {task t2 : TaskInfo α} (hInv : BufferInv m) (hg : m.getTask id = some task)
    (hc : t2.cachedData = task.cachedData) (hs : t2.subscribers = task.subscribers) :
    BufferInv (m.setTask id t2) := by
  refine bufferInv_setTask hInv ?_
  intro hne
  rw [hs]
  exact hInv (id, task) (mem_of_lookupAssoc hg) (by rw [← hc]; exact hne)

theorem bufferInv_update (m : SSEManager α) (c ch : Bool) (id : String) (d : α)
    (n : Nat) (hInv : BufferInv m) : BufferInv (UpdateProgress m c ch id d n).1 := by
  cases hg : m.getTask id with
  | none => simpa only [UpdateProgress, hg] using hInv
  | some task =>
    simp only [UpdateProgress, hg]
    by_cases hs : task.status ≠ TaskStatus.running
    · rw [if_pos hs]
      exact hInv
    · rw [if_neg hs]
      by_cases h1 : (canSendData { task with progress := some d, updatedAt := n } && c) = true
      · rw [if_pos h1]
        cases ch with
        | true =>
          simp only [if_true]
          exact bufferInv_of_preserving hInv hg rfl rfl
        | false =>
          simp only [Bool.false_eq_true, if_false]
          exact bufferInv_of_preserving hInv hg rfl rfl
      · rw [if_neg h1]
        by_cases h2 : c = true
        · rw [if_pos h2]
          exact bufferInv_of_preserving hInv hg rfl rfl
        · rw [if_neg h2]
          by_cases h3 : canSendData { task with progress := some d, updatedAt := n } = true
          · rw [if_pos h3]
            exact bufferInv_of_preserving hInv hg rfl rfl
          · rw [if_neg h3]
            exact bufferInv_of_preserving hInv hg rfl rfl

theorem bufferInv_complete (m : SSEManager α) (id : String) (st : TaskStatus)
    (n : Nat) (hInv : BufferInv m) : BufferInv (CompleteTask m id st n) := by
  rw [CompleteTask]
  cases hg : m.getTask id with
  | none => exact hInv
  | some task =>
    refine bufferInv_setTask hInv ?_
    intro hne
    exact absurd rfl hne

theorem bufferInv_broadcast (m : SSEManager α) (id : String) (hInv : BufferInv m) :
    BufferInv (match m.getTask id with
               | some task => m.setTask id (broadcastStep task)
               | none => m) := by
  cases hg : m.getTask id with
  | none => exact hInv
  | some task =>
    have hmem : (id, task) ∈ m.tasks := mem_of_lookupAssoc hg
    cases hdc : task.dataChannel with
    | none =>
      simp only [broadcastStep, hdc]
      exact bufferInv_of_preserving hInv hg rfl rfl
    | some chn =>
      cases hbuf : chn.buf with
      | nil =>
        simp only [broadcastStep, hdc, hbuf]
        exact bufferInv_of_preserving hInv hg rfl rfl
      | cons d rest =>
        simp only [broadcastStep, hdc, hbuf]
        by_cases hsub : 0 < task.subscribers.length
        · rw [if_pos hsub]
          refine bufferInv_setTask hInv ?_
          intro hne
          have hsubs : task.subscribers = [] := hInv (id, task) hmem hne
          simp [hsubs]
        · rw [if_neg hsub]
          refine bufferInv_setTask hInv ?_
          intro _
          have hnil : task.subscribers = [] := by
            cases h : task.subscribers with
            | nil => rfl
            | cons a l => rw [h] at hsub; simp at hsub
          simp [hnil]

theorem bufferInv_detach (m : SSEManager α) (id sid : String) (hInv : BufferInv m) :
    BufferInv (match m.getTask id with
               | some task => m.setTask id (detachSubscriber task sid)
               | none => m) := by
  cases hg : m.getTask id with
  | none => exact hInv
  | some task =>
    have hmem : (id, task) ∈ m.tasks := mem_of_lookupAssoc hg
    cases hl : lookupAssoc task.subscribers sid with
    | none =>
      simp only [detachSubscriber, hl]
      exact bufferInv_of_preserving hInv hg rfl rfl
    | some chn =>
      simp only [detachSubscriber, hl]
      refine bufferInv_setTask hInv ?_
      intro hne
      have hsubs : task.subscribers = [] := hInv (id, task) hmem hne
      simp [hsubs, removeAssoc]

theorem bufferInv_sweep (m : SSEManager α) (n : Nat) (hInv : BufferInv m) :
    BufferInv (sweepStep m n) := by
  intro q hq hcache
  exact hInv q (List.mem_of_mem_filter hq) hcache

theorem bufferInv_exec (m : SSEManager α) (c : Bool) (cs : List Bool)
    (key sid : String) (n : Nat) (hInv : BufferInv m)
    (hab : (ExecuteWithSSE m c cs key sid n).err ≠ some .ctxCanceled) :
    BufferInv (ExecuteWithSSE m c cs key sid n).m := by
  rw [ExecuteWithSSE] at hab ⊢
  cases hfind : (if key == "" then none else findByResumeKey m.tasks key) with
  | none =>
    simp only [hfind] at hab ⊢
    rw [attachSubscriber_cache_nil _ _ _ _ rfl] at hab ⊢
    simp only [Bool.false_eq_true, if_false]
    intro q hq hcache
    rcases mem_setAssoc hq with h | h
    · rw [h] at hcache
      exact absurd rfl hcache
    · exact hInv q h hcache
  | some pr =>
    obtain ⟨id, task⟩ := pr
    simp only [hfind] at hab ⊢
    by_cases hexp : task.expiresAt < n
    · rw [if_pos hexp]
      exact hInv
    · rw [if_neg hexp] at hab ⊢
      by_cases hst : task.status ≠ TaskStatus.running
      · rw [if_pos hst]
        exact hInv
      · rw [if_neg hst] at hab ⊢
        by_cases habort : (attachSubscriber c cs sid task).2 = true
        · rw [if_pos habort] at hab
          exact absurd rfl hab
        · have habort2 : (attachSubscriber c cs sid task).2 = false := by
            simpa using habort
          rw [if_neg habort]
          refine bufferInv_setTask hInv ?_
          intro hne
          exact absurd (attachSubscriber_no_abort_cache habort2) hne

theorem chanBuf_pushData_of_canSend {x : TaskInfo α} (h : canSendData x = true) (d : α) :
    chanBuf (pushData x d) = chanBuf x ++ [d] := by
  cases hdc : x.dataChannel with
  | none => simp [canSendData, hdc] at h
  | some ch =>
    have hready : ch.sendReady = true := by simpa [canSendData, hdc] using h
    simp [chanBuf, pushData, hdc, trySend_of_ready hready]

/-! ## Claim C1 -/

/-- C1: the claim says a panic in the work function is recovered and
converted into a normal error so that `CompleteTask(taskID, failed)` is
still invoked and the task ends `failed`.  On the code this fails:
`safego.Go`'s recover sits at the goroutine boundary, outside the
`if err != nil` dispatch, so a panicking work function unwinds past both
`CompleteTask` calls.  Evaluating the embedded runner on the freshly
created task of `c1m`: a panic leaves the manager unchanged with the record
still `running`, while an ordinary error return does reach `failed`. -/
theorem c1_panic_skips_completeTask :
    runnerFinish c1m "task_0" .panicked 5 = c1m
    ∧ ((runnerFinish c1m "task_0" .panicked 5).getTask "task_0").map TaskInfo.status
        = some .running
    ∧ ((runnerFinish c1m "task_0" .retErr 5).getTask "task_0").map TaskInfo.status
        = some .failed := by
  refine ⟨rfl, rfl, rfl⟩

/-! ## Claim C2 -/

/-- C2 counterexample: with an empty registry, calling `ExecuteWithSSE`
with the non-empty stale resume key "resume_gone" (matching no record, as
after a sweep) does not return a typed error — it succeeds and silently
creates and starts a brand-new task. -/
theorem c2_counterexample :
    (ExecuteWithSSE (⟨[], 3600⟩ : SSEManager Nat) false [] "resume_gone" "client" 7).err = none
    ∧ (ExecuteWithSSE (⟨[], 3600⟩ : SSEManager Nat) false [] "resume_gone" "client" 7).isNewTask
        = true
    ∧ (ExecuteWithSSE (⟨[], 3600⟩ : SSEManager Nat) false [] "resume_gone" "client" 7).m.getTask
        "task_7" ≠ none := by
  refine ⟨rfl, rfl, by decide⟩

/-- C2 (amended): a non-empty resume key that matches a record still in the
registry receives the typed errors — `ErrTaskExpired` when expired,
`ErrTaskNotRunning` when not running; a non-empty resume key matching no
record does not error: the call silently creates and starts a new task. -/
theorem c2_stale_resume (m : SSEManager α) (ctxDone : Bool) (choices : List Bool)
    (key sid : String) (now : Nat) (hkey : key ≠ "") :
    (∀ id t, findByResumeKey m.tasks key = some (id, t) → t.expiresAt < now →
      (ExecuteWithSSE m ctxDone choices key sid now).err = some .ErrTaskExpired)
    ∧ (∀ id t, findByResumeKey m.tasks key = some (id, t) → ¬ t.expiresAt < now →
      t.status ≠ .running →
      (ExecuteWithSSE m ctxDone choices key sid now).err = some .ErrTaskNotRunning)
    ∧ (findByResumeKey m.tasks key = none →
      (ExecuteWithSSE m ctxDone choices key sid now).err = none
      ∧ (ExecuteWithSSE m ctxDone choices key sid now).isNewTask = true) := by
  have hb : (key == "") = false := beq_false_of_ne hkey
  refine ⟨?_, ?_, ?_⟩
  · intro id t hfind hexp
    rw [exec_found m ctxDone choices sid now hkey hfind, if_pos hexp]
  · intro id t hfind hexp hst
    rw [exec_found m ctxDone choices sid now hkey hfind, if_neg hexp, if_pos hst]
  · intro hfind
    have h2 : (if key == "" then none else findByResumeKey m.tasks key) =
        (none : Option (String × TaskInfo α)) := by
      simp [hb, hfind]
    rw [exec_not_found m ctxDone choices sid now h2]
    exact ⟨rfl, rfl⟩

/-- Witness for C2: the amended statement instantiated with the empty
registry, a stale key and time 7 — the no-match branch fires and the call
creates a new task without error. -/
theorem c2_stale_resume_witness :
    (∀ id t, findByResumeKey (⟨[], 3600⟩ : SSEManager Nat).tasks "resume_gone" = some (id, t) →
      t.expiresAt < 7 →
      (ExecuteWithSSE (⟨[], 3600⟩ : SSEManager Nat) false [] "resume_gone" "client" 7).err
        = some .ErrTaskExpired)
    ∧ (∀ id t, findByResumeKey (⟨[], 3600⟩ : SSEManager Nat).tasks "resume_gone" = some (id, t) →
      ¬ t.expiresAt < 7 → t.status ≠ .running →
      (ExecuteWithSSE (⟨[], 3600⟩ : SSEManager Nat) false [] "resume_gone" "client" 7).err
        = some .ErrTaskNotRunning)
    ∧ (findByResumeKey (⟨[], 3600⟩ : SSEManager Nat).tasks "resume_gone" = none →
      (ExecuteWithSSE (⟨[], 3600⟩ : SSEManager Nat) false [] "resume_gone" "client" 7).err = none
      ∧ (ExecuteWithSSE (⟨[], 3600⟩ : SSEManager Nat) false [] "resume_gone" "client" 7).isNewTask
          = true) :=
  c2_stale_resume (⟨[], 3600⟩ : SSEManager Nat) false [] "resume_gone" "client" 7 (by decide)

/-! ## Claim C3 -/

/-- C3 counterexample: `CompleteTask` has no still-`running` guard, so a
record already terminal with `completed` is overwritten to `failed` by a
later call — a terminal status is not preserved. -/
theorem c3_counterexample :
    (c3m.getTask "t3").map TaskInfo.status = some .completed
    ∧ ((CompleteTask c3m "t3" .failed 9).getTask "t3").map TaskInfo.status = some .failed
    ∧ TaskStatus.failed ≠ TaskStatus.completed := by
  refine ⟨rfl, rfl, by decide⟩

/-- C3 (amended): `CompleteTask` on a known task sets the status to the
given final status unconditionally (whatever the previous status), stamps
`updatedAt`, clears the cache, nils the data channel and empties the
subscriber map; so `running → {completed|failed}` does happen, but a later
call with a different status overwrites the terminal status. -/
theorem c3_complete_unconditional (m : SSEManager α) (id : String) (st : TaskStatus)
    (n : Nat) (t : TaskInfo α) (h : m.getTask id = some t) :
    (CompleteTask m id st n).getTask id =
      some { t with
             status := st
             updatedAt := n
             cachedData := []
             dataChannel := none
             subscribers := [] } := by
  simp only [CompleteTask, h]
  exact getTask_setTask_self m id _

/-- Witness for C3: completing the already-`completed` record of `c3m` with
`failed` at time 9 yields the record with status `failed`. -/
theorem c3_complete_unconditional_witness :
    (CompleteTask c3m "t3" .failed 9).getTask "t3" =
      some { c3task with
             status := .failed
             updatedAt := 9
             cachedData := []
             dataChannel := none
             subscribers := [] } :=
  c3_complete_unconditional c3m "t3" .failed 9 c3task rfl

/-! ## Claim C4 -/

theorem exec_resume_detached (cached : List α) (h100 : cached.length ≤ 100) :
    ExecuteWithSSE (detachedManager cached) false [] "r" "s" 0 =
      ⟨⟨[("t", liveState ⟨100, cached, false⟩ none 0)], 3600⟩, none, "t", false⟩ := by
  have hfind : findByResumeKey (detachedManager cached).tasks "r" =
      some ("t", detachedRecord cached) := rfl
  rw [exec_found (detachedManager cached) false [] "s" 0 (by decide) hfind]
  rw [if_neg (show ¬ (detachedRecord cached).expiresAt < 0 by simp [detachedRecord])]
  rw [if_neg (show ¬ (detachedRecord cached).status ≠ TaskStatus.running by
    simp [detachedRecord])]
  rw [attachSubscriber_not_done]
  simp only [Bool.false_eq_true, if_false]
  rw [show (detachedRecord cached).cachedData = cached from rfl]
  rw [foldl_trySend_of_room cached ⟨100, [], false⟩ rfl (by simpa using h100)]
  simp [detachedManager, SSEManager.setTask, setAssoc, liveState, detachedRecord]

theorem liveStep_eq (ch : Chan α) (prog : Option α) (upd : Nat) (d : α) :
    liveStep ⟨[("t", liveState ch prog upd)], 3600⟩ d =
      ⟨[("t", liveState (ch.trySend d) (some d) 1)], 3600⟩ := rfl

theorem foldl_liveStep (live : List α) (ch : Chan α) (prog : Option α) (upd : Nat) :
    ∃ prog2 upd2, live.foldl liveStep ⟨[("t", liveState ch prog upd)], 3600⟩ =
      ⟨[("t", liveState (live.foldl Chan.trySend ch) prog2 upd2)], 3600⟩ := by
  induction live generalizing ch prog upd with
  | nil => exact ⟨prog, upd, rfl⟩
  | cons d rest ih =>
    rw [List.foldl_cons, liveStep_eq, List.foldl_cons]
    exact ih (ch.trySend d) (some d) 1

/-- C4 (amended): resume ordering holds up to the subscriber-queue capacity.
For every backlog of `cached` payloads buffered while no consumer was
attached, with `cached.length ≤ 100` (the capacity of the subscriber
channel the flush targets), a resume delivers exactly the backlog, in
order, before any post-resume live update; the live tail is a sublist of
the live updates (drop-on-full on the subscriber queue). -/
theorem c4_resume_ordering (cached live : List α) (h100 : cached.length ≤ 100) :
    ∃ kept, deliveredAfterResume cached live = cached ++ kept ∧ kept.Sublist live := by
  obtain ⟨kept, hbuf, hsub⟩ := foldl_trySend_sublist live (⟨100, cached, false⟩ : Chan α)
  refine ⟨kept, ?_, hsub⟩
  obtain ⟨p2, u2, hfold⟩ := foldl_liveStep live (⟨100, cached, false⟩ : Chan α) none 0
  rw [deliveredAfterResume]
  rw [exec_resume_detached cached h100]
  simp only []
  rw [hfold]
  show ([] : List α) ++ (live.foldl Chan.trySend (⟨100, cached, false⟩ : Chan α)).buf
    = cached ++ kept
  simpa using hbuf

/-- Witness for C4: three buffered payloads and one live payload — the
resume delivers `[1, 2, 3]` first, then a sublist of `[4]`. -/
theorem c4_resume_ordering_witness :
    ∃ kept, deliveredAfterResume [1, 2, 3] [4] = [1, 2, 3] ++ kept ∧ kept.Sublist [4] :=
  c4_resume_ordering [1, 2, 3] [4] (by decide)

set_option maxRecDepth 8192 in
/-- C4 counterexample: the claim as stated quantifies over every N, but a
backlog of 101 payloads does not survive the flush into the capacity-100
subscriber queue — the 101st update is silently dropped, so the resume does
not deliver exactly the N buffered updates. -/
theorem c4_counterexample :
    deliveredAfterResume (List.range 101) ([] : List Nat) ≠ List.range 101 := by
  decide

/-! ## Claim C5 -/

/-- C5: the `UpdateProgress` contract.  `ErrTaskNotFound` is returned
exactly when the id is unknown; `ErrTaskNotRunning` exactly when the id is
known but its status is not `running`; and on success (a `nil` return) the
record holds the payload as `progress` with `updatedAt` stamped, and the
raw queue either received the payload or — only when a send was not ready,
i.e. the queue was full (or gone) — was left unchanged, the event silently
dropped while `progress` still holds the latest payload. -/
theorem c5_update_progress_contract (m : SSEManager α) (ctxDone choice : Bool)
    (id : String) (d : α) (n : Nat) :
    ((UpdateProgress m ctxDone choice id d n).2 = some .ErrTaskNotFound ↔
      m.getTask id = none)
    ∧ ((UpdateProgress m ctxDone choice id d n).2 = some .ErrTaskNotRunning ↔
      ∃ t, m.getTask id = some t ∧ t.status ≠ .running)
    ∧ ((UpdateProgress m ctxDone choice id d n).2 = none →
      ∃ t t2, m.getTask id = some t ∧ t.status = .running ∧
        (UpdateProgress m ctxDone choice id d n).1.getTask id = some t2 ∧
        t2.progress = some d ∧ t2.updatedAt = n ∧
        (chanBuf t2 = chanBuf t ++ [d]
         ∨ (canSendData t = false ∧ chanBuf t2 = chanBuf t))) := by
  cases hg : m.getTask id with
  | none =>
    simp only [UpdateProgress, hg]
    refine ⟨by simp, ?_, by simp⟩
    constructor
    · intro h
      simp at h
    · rintro ⟨t, ht, _⟩
      cases ht
  | some task =>
    by_cases hs : task.status ≠ TaskStatus.running
    · simp only [UpdateProgress, hg]
      rw [if_pos hs]
      refine ⟨?_, ?_, by simp⟩
      · constructor <;> intro h <;> simp at h
      · exact ⟨fun _ => ⟨task, rfl, hs⟩, fun _ => rfl⟩
    · have hrun : task.status = TaskStatus.running := not_not.mp hs
      simp only [UpdateProgress, hg]
      rw [if_neg hs]
      by_cases h1 : (canSendData { task with progress := some d, updatedAt := n } && ctxDone)
          = true
      · have hcs : canSendData { task with progress := some d, updatedAt := n } = true :=
          (Bool.and_eq_true _ _ |>.mp h1).1
        rw [if_pos h1]
        cases choice with
        | true =>
          simp only [if_true]
          refine ⟨?_, ?_, by simp⟩
          · constructor <;> intro h <;> simp at h
          · constructor <;> intro h <;> simp [hrun] at h
        | false =>
          simp only [Bool.false_eq_true, if_false]
          refine ⟨?_, ?_, ?_⟩
          · constructor <;> intro h <;> simp at h
          · constructor <;> intro h <;> simp [hrun] at h
          · intro _
            refine ⟨task, pushData { task with progress := some d, updatedAt := n } d,
              rfl, hrun, getTask_setTask_self m id _, rfl, rfl, Or.inl ?_⟩
            exact chanBuf_pushData_of_canSend hcs d
      · rw [if_neg h1]
        by_cases h2 : ctxDone = true
        · rw [if_pos h2]
          refine ⟨?_, ?_, by simp⟩
          · constructor <;> intro h <;> simp at h
          · constructor <;> intro h <;> simp [hrun] at h
        · rw [if_neg h2]
          by_cases h3 : canSendData { task with progress := some d, updatedAt := n } = true
          · rw [if_pos h3]
            refine ⟨?_, ?_, ?_⟩
            · constructor <;> intro h <;> simp at h
            · constructor <;> intro h <;> simp [hrun] at h
            · intro _
              refine ⟨task, pushData { task with progress := some d, updatedAt := n } d,
                rfl, hrun, getTask_setTask_self m id _, rfl, rfl, Or.inl ?_⟩
              exact chanBuf_pushData_of_canSend h3 d
          · rw [if_neg h3]
            refine ⟨?_, ?_, ?_⟩
            · constructor <;> intro h <;> simp at h
            · constructor <;> intro h <;> simp [hrun] at h
            · intro _
              refine ⟨task, { task with progress := some d, updatedAt := n },
                rfl, hrun, getTask_setTask_self m id _, rfl, rfl, Or.inr ⟨?_, rfl⟩⟩
              simpa using h3


/-- Witness for C5: the contract instantiated on the single-running-task
manager `c5m` at payload 7, time 3. -/
theorem c5_update_progress_contract_witness :
    ((UpdateProgress c5m false false "t" 7 3).2 = some .ErrTaskNotFound ↔
      c5m.getTask "t" = none)
    ∧ ((UpdateProgress c5m false false "t" 7 3).2 = some .ErrTaskNotRunning ↔
      ∃ t, c5m.getTask "t" = some t ∧ t.status ≠ .running)
    ∧ ((UpdateProgress c5m false false "t" 7 3).2 = none →
      ∃ t t2, c5m.getTask "t" = some t ∧ t.status = .running ∧
        (UpdateProgress c5m false false "t" 7 3).1.getTask "t" = some t2 ∧
        t2.progress = some 7 ∧ t2.updatedAt = 3 ∧
        (chanBuf t2 = chanBuf t ++ [7]
         ∨ (canSendData t = false ∧ chanBuf t2 = chanBuf t))) :=
  c5_update_progress_contract c5m false false "t" 7 3

/-! ## Claim C6 -/

/-- C6: the expiry hard cutoff.  Whenever a non-empty resume key matches a
record still in the registry whose `expiresAt` has passed, `ExecuteWithSSE`
returns `ErrTaskExpired` and leaves the manager unchanged — with no
hypothesis on the record's status, because the expiry check precedes the
status check. -/
theorem c6_expiry_cutoff (m : SSEManager α) (ctxDone : Bool) (choices : List Bool)
    (key sid : String) (now : Nat) (id : String) (t : TaskInfo α)
    (hkey : key ≠ "") (hfind : findByResumeKey m.tasks key = some (id, t))
    (hexp : t.expiresAt < now) :
    ExecuteWithSSE m ctxDone choices key sid now = ⟨m, some .ErrTaskExpired, "", false⟩ := by
  rw [exec_found m ctxDone choices sid now hkey hfind, if_pos hexp]

/-- Witness for C6: resuming the expired and already-terminal record of
`c6m` at time 20 returns `ErrTaskExpired` — not `ErrTaskNotRunning` — even
though the record is not swept and not `running`. -/
theorem c6_expiry_cutoff_witness :
    ExecuteWithSSE c6m false [] "r6" "s6" 20 = ⟨c6m, some .ErrTaskExpired, "", false⟩ :=
  c6_expiry_cutoff c6m false [] "r6" "s6" 20 "t6" c6task (by decide) rfl (by decide)

/-! ## Claim C7 -/

/-- C7 counterexample: the invariant is not kept by every operation.  From
the invariant-satisfying state `c7m` (one detached running record with a
non-empty cache), a single `ExecuteWithSSE` resume whose caller context is
already cancelled first registers the new subscriber, then aborts the flush
with the context's error and never clears the cache: in `c7after` the
record has a non-empty cache and a non-empty subscriber map at once. -/
theorem c7_counterexample : BufferInv c7m ∧ ¬ BufferInv c7after := by
  constructor
  · unfold BufferInv
    decide
  · unfold BufferInv
    decide

/-- C7 (amended): every operation except an `ExecuteWithSSE` attach aborted
by the caller's already-cancelled context preserves the invariant that a
record with a non-empty cache has zero subscribers — the broadcast step
appends to the cache only when the subscriber map is empty, and an attach
that returns without the context error always leaves the cache cleared. -/
theorem c7_buffer_invariant (m : SSEManager α) (op : Op α) (hInv : BufferInv m)
    (hab : ¬ execAborted m op) : BufferInv (applyOp m op).1 := by
  cases op with
  | exec c cs key sid n => exact bufferInv_exec m c cs key sid n hInv hab
  | progress c ch id d n => exact bufferInv_update m c ch id d n hInv
  | broadcast id => exact bufferInv_broadcast m id hInv
  | complete id st n => exact bufferInv_complete m id st n hInv
  | detach id sid => exact bufferInv_detach m id sid hInv
  | sweep n => exact bufferInv_sweep m n hInv

/-- Witness for C7: from `c7m` (where the invariant holds), a progress
operation — which is never an aborted attach — preserves the invariant. -/
theorem c7_buffer_invariant_witness :
    BufferInv (applyOp c7m (Op.progress false false "t7" 9 1)).1 :=
  c7_buffer_invariant c7m (Op.progress false false "t7" 9 1)
    (by unfold BufferInv; decide) (fun h => h)

/-! ## Claim C8 -/

/-- C8: cancelling the caller's context tears down only that consumer
session.  The teardown closes the session's output channel and deregisters
exactly its subscriber entry; every other subscriber, the record's status,
the answer of `GetTaskInfo` (still `running` when the work function has not
finished), and every other record are untouched.  The runner's scope is not
even an input of the teardown — `asyncScopeDone` depends only on the
timeout and elapsed time. -/
theorem c8_cancel_isolated (m : SSEManager α) (id sid : String) (s : ConsumerSession) :
    ((consumerCancel m id sid s).2.outputClosed = true)
    ∧ (∀ t2, (consumerCancel m id sid s).1.getTask id = some t2 →
        lookupAssoc t2.subscribers sid = none)
    ∧ (((consumerCancel m id sid s).1.getTask id).map TaskInfo.status
        = (m.getTask id).map TaskInfo.status)
    ∧ (∀ t t2 sid2, m.getTask id = some t →
        (consumerCancel m id sid s).1.getTask id = some t2 → sid2 ≠ sid →
        lookupAssoc t2.subscribers sid2 = lookupAssoc t.subscribers sid2)
    ∧ (∀ t, m.getTask id = some t → t.status = .running →
        ∃ t2, GetTaskInfo (consumerCancel m id sid s).1 id = .ok t2 ∧ t2.status = .running)
    ∧ (∀ id2, id2 ≠ id → (consumerCancel m id sid s).1.getTask id2 = m.getTask id2) := by
  cases hg : m.getTask id with
  | none =>
    have hcc : consumerCancel m id sid s = (m, { s with outputClosed := true }) := by
      simp [consumerCancel, hg]
    rw [hcc]
    refine ⟨rfl, ?_, by simp [hg], ?_, ?_, fun id2 _ => rfl⟩
    · intro t2 h
      have h2 : m.getTask id = some t2 := h
      rw [hg] at h2
      cases h2
    · intro t t2 sid2 ht _ _
      cases ht
    · intro t ht
      cases ht
  | some task =>
    have hcc : consumerCancel m id sid s =
        (m.setTask id (detachSubscriber task sid), { s with outputClosed := true }) := by
      simp [consumerCancel, hg]
    have hset := getTask_setTask_self m id (detachSubscriber task sid)
    have hstat : (detachSubscriber task sid).status = task.status := by
      cases hl : lookupAssoc task.subscribers sid <;> simp [detachSubscriber, hl]
    have hsubnone : lookupAssoc (detachSubscriber task sid).subscribers sid = none := by
      cases hl : lookupAssoc task.subscribers sid with
      | none => simp [detachSubscriber, hl]
      | some chn =>
        simp only [detachSubscriber, hl]
        exact lookupAssoc_removeAssoc_self _ _
    have hsubne : ∀ sid2, sid2 ≠ sid →
        lookupAssoc (detachSubscriber task sid).subscribers sid2
          = lookupAssoc task.subscribers sid2 := by
      intro sid2 hne
      cases hl : lookupAssoc task.subscribers sid with
      | none => simp [detachSubscriber, hl]
      | some chn =>
        simp only [detachSubscriber, hl]
        exact lookupAssoc_removeAssoc_ne _ _ _ hne
    rw [hcc]
    refine ⟨rfl, ?_, ?_, ?_, ?_, ?_⟩
    · intro t2 h
      have h2 : (m.setTask id (detachSubscriber task sid)).getTask id = some t2 := h
      rw [hset] at h2
      cases h2
      exact hsubnone
    · show ((m.setTask id (detachSubscriber task sid)).getTask id).map TaskInfo.status = _
      rw [hset]
      simp [hstat]
    · intro t t2 sid2 ht h2 hne
      cases ht
      have h3 : (m.setTask id (detachSubscriber task sid)).getTask id = some t2 := h2
      rw [hset] at h3
      cases h3
      exact hsubne sid2 hne
    · intro t ht hrun
      cases ht
      refine ⟨{ detachSubscriber task sid with
                cachedData := []
                dataChannel := none
                subscribers := []
                listenerStarted := false }, ?_, ?_⟩
      · simp only [GetTaskInfo, hset]
      · simp [hstat, hrun]
    · intro id2 hne
      exact getTask_setTask_ne m id id2 _ hne


/-- Witness for C8: the isolation statement instantiated on the
fresh-task manager `c8m`, its single task `task_0`, its attached consumer
`c8sub`, and an open session. -/
theorem c8_cancel_isolated_witness :
    ((consumerCancel c8m "task_0" "c8sub" ⟨false⟩).2.outputClosed = true)
    ∧ (∀ t2, (consumerCancel c8m "task_0" "c8sub" ⟨false⟩).1.getTask "task_0" = some t2 →
        lookupAssoc t2.subscribers "c8sub" = none)
    ∧ (((consumerCancel c8m "task_0" "c8sub" ⟨false⟩).1.getTask "task_0").map TaskInfo.status
        = (c8m.getTask "task_0").map TaskInfo.status)
    ∧ (∀ t t2 sid2, c8m.getTask "task_0" = some t →
        (consumerCancel c8m "task_0" "c8sub" ⟨false⟩).1.getTask "task_0" = some t2 →
        sid2 ≠ "c8sub" →
        lookupAssoc t2.subscribers sid2 = lookupAssoc t.subscribers sid2)
    ∧ (∀ t, c8m.getTask "task_0" = some t → t.status = .running →
        ∃ t2, GetTaskInfo (consumerCancel c8m "task_0" "c8sub" ⟨false⟩).1 "task_0" = .ok t2
          ∧ t2.status = .running)
    ∧ (∀ id2, id2 ≠ "task_0" →
        (consumerCancel c8m "task_0" "c8sub" ⟨false⟩).1.getTask id2 = c8m.getTask id2) :=
  c8_cancel_isolated c8m "task_0" "c8sub" ⟨false⟩

/-! ## Claim C9 -/

/-- C9: the failing attach is not atomic.  Resuming the running task of
`c9m` (non-empty cache `[1]`) with an already-cancelled caller context, in
the execution where the flush select picks `ctx.Done()` first, returns the
context's error — yet the new subscriber `s9` is already registered in the
record's subscriber map (with an empty queue), the cache is still intact,
and the manager state therefore differs from the pre-call state. -/
theorem c9_error_path_registers_subscriber :
    (ExecuteWithSSE c9m true [true] "r9" "s9" 0).err = some .ctxCanceled
    ∧ ((ExecuteWithSSE c9m true [true] "r9" "s9" 0).m.getTask "t9").map
        (fun t => lookupAssoc t.subscribers "s9")
        = some (some (⟨100, [], false⟩ : Chan Nat))
    ∧ ((ExecuteWithSSE c9m true [true] "r9" "s9" 0).m.getTask "t9").map TaskInfo.cachedData
        = some [1]
    ∧ (ExecuteWithSSE c9m true [true] "r9" "s9" 0).m ≠ c9m := by
  refine ⟨rfl, rfl, rfl, by decide⟩

/-! ## Claim C10 -/

/-- C10: `UpdateProgress` on the known, running task of `c10m` with an
already-cancelled context can return the context's error — an error outside
the `ErrTaskNotFound`/`ErrTaskNotRunning` taxonomy (in the execution where
the final select picks `ctx.Done()`) — and when it does, the record's
`progress` and `updatedAt` have already been written. -/
theorem c10_ctx_error_after_write :
    (UpdateProgress c10m true true "t10" 9 4).2 = some .ctxCanceled
    ∧ SSEError.ctxCanceled ≠ SSEError.ErrTaskNotFound
    ∧ SSEError.ctxCanceled ≠ SSEError.ErrTaskNotRunning
    ∧ (c10m.getTask "t10").map TaskInfo.status = some .running
    ∧ ((UpdateProgress c10m true true "t10" 9 4).1.getTask "t10").map TaskInfo.progress
        = some (some 9)
    ∧ ((UpdateProgress c10m true true "t10" 9 4).1.getTask "t10").map TaskInfo.updatedAt
        = some 4 := by
  refine ⟨rfl, by decide, by decide, rfl, rfl, rfl⟩

end SSE
